import Mathlib

/-!
# Verification of the time-series dashboard's computational fragments

Shallow embedding of the computational logic of the frontend components
`TimeSeriesChart.tsx`, `BacktestResults.tsx` and `CriticalEventsList.tsx`:
range-selection statistics, drag/brush range resolution, backtest error
aggregation, the date-bucketed forecast overlay and event-marker placement.

JavaScript numbers are modelled as rationals (`ℚ`); a non-finite number
(`Infinity`/`NaN`, which in this code can only arise from a division by zero
or from reading past the end of an array) is modelled as `none` in
`Option ℚ`.  External library functions (date parsing/formatting from
`date-fns`, `new Date(...).getTime()`) are parameters of the embedding.
-/

namespace Dashboard

/-- `ChartDataPoint` from `types.ts`: one display-ready point of the series. -/
structure ChartDataPoint where
  timestamp : String
  value : ℚ
  formattedDate : String
deriving Repr, DecidableEq

/-- `DateRange` from `types.ts`: a selection over the current point array. -/
structure DateRange where
  startDate : String
  endDate : String
  startIndex : Nat
  endIndex : Nat
deriving Repr, DecidableEq

/-- `CriticalEvent`: payload of the critical-events service, as consumed by
`TimeSeriesChart.tsx` (fields `timestamp`, `date`, `title`, `summary`). -/
structure CriticalEvent where
  timestamp : String
  date : String
  title : Option String
  summary : String
deriving Repr, DecidableEq

/-- `BacktestWindow` from `types.ts`. -/
structure BacktestWindow where
  history_start : String
  history_end : String
  target_start : String
  target_end : String
  actual_values : List ℚ
  forecast_values : List ℚ
  timestamps : List String
deriving Repr, DecidableEq

/-- `BacktestResult` from `types.ts`. -/
structure BacktestResult where
  ticker : String
  cutoff_date : String
  forecast_window : String
  stride : String
  frequency : String
  windows : List BacktestWindow
  mape : ℚ
  mae : ℚ
  total_points : Nat
deriving Repr, DecidableEq

/-- JavaScript `a / b`: a division by zero yields a non-finite number
(`Infinity` or `NaN`), modelled as `none`. -/
def jsDiv (a b : ℚ) : Option ℚ :=
  if b = 0 then none else some (a / b)

/-- JavaScript `s.split('T')[0]`: the part of the string before the first
`'T'` (the whole string when no `'T'` occurs). -/
def splitDate (s : String) : String :=
  String.mk (s.toList.takeWhile (fun c => c ≠ 'T'))

/-- JavaScript `data[i]` for a possibly negative index: out-of-range access
(in particular `findIndex`'s `-1`) yields `undefined`, modelled as `none`. -/
def jsGet (data : List ChartDataPoint) (i : Int) : Option ChartDataPoint :=
  if i < 0 then none else data[i.toNat]?

/-- JavaScript `data.findIndex(d => d.timestamp === ts)`: the index of the
first point with the given timestamp, `-1` when there is none. -/
def findIndexTS (data : List ChartDataPoint) (ts : String) : Int :=
  match data.findIdx? (fun d => d.timestamp = ts) with
  | some i => (i : Int)
  | none => -1

/-- JavaScript truthiness of a `string | null` value: `null` and the empty
string are falsy. -/
def truthy : Option String → Bool
  | some s => !(s == "")
  | none => false

/-- `onMouseUp` (`TimeSeriesChart.tsx`, lines 204–231): resolution of a drag
gesture into a range.  The result is `none` when `onRangeChange` is not
called (not dragging, a falsy anchor, or an out-of-range point access that
would throw); `some x` means `onRangeChange` was called with `x`. -/
def onMouseUp (data : List ChartDataPoint) (isDragging : Bool)
    (refAreaLeft refAreaRight : Option String) : Option (Option DateRange) :=
  if isDragging && truthy refAreaLeft && truthy refAreaRight then
    let leftIndex := findIndexTS data (refAreaLeft.getD "")
    let rightIndex := findIndexTS data (refAreaRight.getD "")
    let li := if leftIndex > rightIndex then rightIndex else leftIndex
    let ri := if leftIndex > rightIndex then leftIndex else rightIndex
    if ri - li > 0 then
      match jsGet data li, jsGet data ri with
      | some sp, some ep =>
        some (some { startDate := splitDate sp.timestamp
                     endDate := splitDate ep.timestamp
                     startIndex := li.toNat
                     endIndex := ri.toNat })
      | _, _ => none
    else some none
  else none

/-- Result record of `rangeStats` in `TimeSeriesChart.tsx`.
`changePercent` is `none` when the JavaScript value is non-finite. -/
structure RangeStats where
  startValue : ℚ
  endValue : ℚ
  change : ℚ
  changePercent : Option ℚ
deriving Repr, DecidableEq

/-- `rangeStats` (`TimeSeriesChart.tsx`, lines 147–164): statistics of the
currently selected range.  Returns `none` exactly when the source returns
`null` (no selection, empty data, or an out-of-range index). -/
def rangeStats (data : List ChartDataPoint) (selectedRange : Option DateRange) :
    Option RangeStats :=
  match selectedRange with
  | none => none
  | some r =>
    if data.length = 0 then none
    else
      match data[r.startIndex]?, data[r.endIndex]? with
      | some sp, some ep =>
        some { startValue := sp.value
               endValue := ep.value
               change := ep.value - sp.value
               changePercent := (jsDiv (ep.value - sp.value) sp.value).map (· * 100) }
      | _, _ => none

/-- `windowErrors` (`BacktestResults.tsx`, lines 403–405): per-point
percentage errors of one backtest window,
`a !== 0 ? Math.abs((a - forecast_values[i]) / a) * 100 : 0` over the
enumerated `actual_values`.  `none` models the `NaN` produced in JavaScript
when `forecast_values[i]` is `undefined` (misaligned arrays). -/
def windowErrors (w : BacktestWindow) : List (Option ℚ) :=
  w.actual_values.enum.map (fun p =>
    if p.2 ≠ 0 then (w.forecast_values[p.1]?).map (fun f => |(p.2 - f) / p.2| * 100)
    else some 0)

/-- JavaScript `errors.reduce((sum, e) => sum + e, 0)`: a `NaN` summand
(`none`) absorbs the whole sum. -/
def jsSum (l : List (Option ℚ)) : Option ℚ :=
  l.foldl (fun acc e =>
    match acc, e with
    | some s, some v => some (s + v)
    | _, _ => none) (some 0)

/-- `windowMape` (`BacktestResults.tsx`, line 406): the per-window MAPE,
`windowErrors.reduce((sum, e) => sum + e, 0) / windowErrors.length`. -/
def windowMape (w : BacktestWindow) : Option ℚ :=
  match jsSum (windowErrors w) with
  | some s => jsDiv s ((windowErrors w).length : ℚ)
  | none => none

/-- The overall MAPE figure rendered by `BacktestResults.tsx` (line 212,
`result.mape.toFixed(2)`): read directly from the service response. -/
def displayedMape (result : BacktestResult) : ℚ := result.mape

/-- The overall MAE figure rendered by `BacktestResults.tsx` (line 229,
`result.mae.toFixed(2)`): read directly from the service response. -/
def displayedMae (result : BacktestResult) : ℚ := result.mae

/-- JavaScript `Map.prototype.set`, on a `Map` modelled as an
insertion-ordered association list: overwrite the existing entry for the key,
or append a new one.  The stored value is `Option ℚ` because the source can
store `undefined` (`forecast_values[i]` past the end of the array). -/
def mapSet (m : List (String × Option ℚ)) (k : String) (v : Option ℚ) :
    List (String × Option ℚ) :=
  if m.any (fun p => p.1 = k) then
    m.map (fun p => if p.1 = k then (k, v) else p)
  else m ++ [(k, v)]

/-- JavaScript `Map.prototype.get`: `none` when the key is absent,
`some v` when the key holds `v` (itself possibly the stored `undefined`). -/
def mapGet (m : List (String × Option ℚ)) (k : String) : Option (Option ℚ) :=
  (m.find? (fun p => p.1 = k)).map (fun p => p.2)

/-- `forecastMap` (`BacktestResults.tsx`, lines 70–83): for each window, for
each timestamp position, write the forecast value under the calendar-date
key (`ts.split('T')[0]`). -/
def forecastMap (result : Option BacktestResult) :
    List (String × Option ℚ) :=
  match result with
  | none => []
  | some r =>
    if r.windows.length = 0 then []
    else
      r.windows.foldl (fun m w =>
        w.timestamps.enum.foldl (fun m p =>
          mapSet m (splitDate p.2) w.forecast_values[p.1]?) m) []

/-- One row of the backtest comparison chart: `actual` and `forecast` are
`none` when the source holds `null`/`undefined` there. -/
structure ChartRow where
  date : String
  actual : Option ℚ
  forecast : Option ℚ
deriving Repr, DecidableEq

/-- The fallback branch of `chartData` (`BacktestResults.tsx`,
lines 103–115): flatten the windows when no full time series is supplied. -/
def fallbackChartData (r : BacktestResult) : List ChartRow :=
  r.windows.foldl (fun data w =>
    data ++ w.timestamps.enum.map (fun p =>
      { date := p.2
        actual := w.actual_values[p.1]?
        forecast := w.forecast_values[p.1]? })) []

/-- `chartData` (`BacktestResults.tsx`, lines 86–116): merge the full time
series with the forecast lookup; a date with no forecast gets
`forecast = null` (`forecastValue ?? null`). -/
def chartData (result : Option BacktestResult)
    (fullTimeSeries : Option (List ChartDataPoint)) : List ChartRow :=
  match result with
  | none => []
  | some r =>
    match fullTimeSeries with
    | some fts =>
      if fts.length > 0 then
        fts.map (fun point =>
          { date := point.timestamp
            actual := some point.value
            forecast :=
              (mapGet (forecastMap (some r)) (splitDate point.timestamp)).join })
      else fallbackChartData r
    | none => fallbackChartData r

/-- The sequence of `(key, value)` writes performed by `forecastMap`, in
program order: windows in array order, timestamp positions within a window
in array order. -/
def allWrites (windows : List BacktestWindow) : List (String × Option ℚ) :=
  windows.flatMap (fun w =>
    w.timestamps.enum.map (fun p => (splitDate p.2, w.forecast_values[p.1]?)))

/-- `formatXAxis` (`TimeSeriesChart.tsx`, lines 48–54): try/catch around the
external `format(parseISO(timestamp), 'MMM yyyy')` from `date-fns`, modelled
by a parameter `fmt` that returns `none` exactly when the library throws. -/
def formatXAxis (fmt : String → Option String) (timestamp : String) : String :=
  match fmt timestamp with
  | some s => s
  | none => timestamp

/-- `formatDate` (`BacktestResults.tsx`, lines 51–57): try/catch around the
external `format(parseISO(dateStr), 'MMM d, yyyy')`. -/
def formatDate (fmt : String → Option String) (dateStr : String) : String :=
  match fmt dateStr with
  | some s => s
  | none => dateStr

/-- The date formatting of `CriticalEventsList.tsx` (lines 79–91): one
try-block computing the formatted date, month and day strings; the catch
falls back to the raw `event.date` and the placeholders `---`/`--`. -/
def eventDateBadge (fmt3 : String → Option (String × String × String))
    (date : String) : String × String × String :=
  match fmt3 date with
  | some x => x
  | none => (date, "---", "--")

/-- `brushData` as received by the `Brush onChange` handler: the whole
object or either index may be `undefined`. -/
structure BrushData where
  startIndex : Option Nat
  endIndex : Option Nat
deriving Repr, DecidableEq

/-- The full-range fallback inside the brush handler
(`TimeSeriesChart.tsx`, lines 416–422): the range over `data[0]` and
`data[data.length - 1]`, or `null` when the data array is empty. -/
def brushFullRange (data : List ChartDataPoint) : Option DateRange :=
  match data[0]?, data[data.length - 1]? with
  | some p0, some pn =>
    some { startDate := splitDate p0.timestamp
           endDate := splitDate pn.timestamp
           startIndex := 0
           endIndex := data.length - 1 }
  | _, _ => none

/-- The `Brush onChange` handler (`TimeSeriesChart.tsx`, lines 402–427),
assuming an `onBrushChange` callback is installed.  `none` means the
callback is not invoked; `some x` means it is invoked with `x`. -/
def brushOnChange (data : List ChartDataPoint) (brushData : Option BrushData) :
    Option (Option DateRange) :=
  match brushData with
  | some bd =>
    match bd.startIndex, bd.endIndex with
    | some si, some ei =>
      match data[si]?, data[ei]? with
      | some sp, some ep =>
        some (some { startDate := splitDate sp.timestamp
                     endDate := splitDate ep.timestamp
                     startIndex := si
                     endIndex := ei })
      | _, _ => none
    | none, _ => some (brushFullRange data)
    | some _, none => none
  | none => some (brushFullRange data)

/-- `Math.abs(new Date(a).getTime() - new Date(b).getTime())`, parametrized
by the external date parser `getTime`; `none` models the `NaN` of an invalid
date, which propagates through the subtraction and `Math.abs`. -/
def jsAbsDiff (getTime : String → Option ℚ) (a b : String) : Option ℚ :=
  match getTime a, getTime b with
  | some x, some y => some |x - y|
  | _, _ => none

/-- The body of the closest-point loop of `eventMarkers`
(`TimeSeriesChart.tsx`, lines 174–181): update `(closestPoint, minDiff)`
when `diff < minDiff`.  `minDiff = none` models the initial `Infinity`
(any defined diff beats it); a `NaN` diff never updates. -/
def closestStep (getTime : String → Option ℚ) (eventDate : String)
    (acc : Option ChartDataPoint × Option ℚ) (point : ChartDataPoint) :
    Option ChartDataPoint × Option ℚ :=
  match jsAbsDiff getTime (splitDate point.timestamp) eventDate, acc.2 with
  | some d, some m => if d < m then (some point, some d) else acc
  | some d, none => (some point, some d)
  | none, _ => acc

/-- The closest-point scan of `eventMarkers`: `closestPoint` starts at
`data[0]` (undefined for empty data), `minDiff` at `Infinity`. -/
def closestScan (getTime : String → Option ℚ) (eventDate : String)
    (data : List ChartDataPoint) : Option ChartDataPoint × Option ℚ :=
  data.foldl (closestStep getTime eventDate) (data.head?, none)

/-- `eventMarkers` (`TimeSeriesChart.tsx`, lines 166–188): for each critical
event, the marker anchored at the data point closest in time to the event's
date (`{ ...closestPoint, event }`, modelled as the pair of the closest
point and the event). -/
def eventMarkers (getTime : String → Option ℚ) (showEventMarkers : Bool)
    (criticalEvents : List CriticalEvent) (data : List ChartDataPoint) :
    List (Option ChartDataPoint × CriticalEvent) :=
  if ¬showEventMarkers ∨ criticalEvents.length = 0 then []
  else criticalEvents.map (fun event =>
    ((closestScan getTime (splitDate event.timestamp) data).1, event))

/-- C1 (amended): whenever both endpoints of the selected range exist and the
start value is non-zero, `rangeStats` returns statistics with
`change = endValue − startValue` and `changePercent = change / startValue × 100`;
the sign of `changePercent` matches the direction of the change whenever the
start value is positive. -/
theorem rangeStats_change_formula (data : List ChartDataPoint) (r : DateRange)
    (sp ep : ChartDataPoint)
    (hs : data[r.startIndex]? = some sp) (he : data[r.endIndex]? = some ep)
    (hnz : sp.value ≠ 0) :
    ∃ stats cp, rangeStats data (some r) = some stats ∧
      stats.startValue = sp.value ∧ stats.endValue = ep.value ∧
      stats.change = ep.value - sp.value ∧
      stats.changePercent = some cp ∧ cp = stats.change / sp.value * 100 ∧
      (0 < sp.value →
        ((0 < stats.change ↔ 0 < cp) ∧ (stats.change < 0 ↔ cp < 0))) := by
  have hlen : data.length ≠ 0 := by
    intro h0
    rw [List.length_eq_zero] at h0
    subst h0
    simp at hs
  refine ⟨⟨sp.value, ep.value, ep.value - sp.value,
      some ((ep.value - sp.value) / sp.value * 100)⟩,
    (ep.value - sp.value) / sp.value * 100, ?_, rfl, rfl, rfl, rfl, rfl, ?_⟩
  · simp [rangeStats, hlen, hs, he, jsDiv, hnz]
  · intro hpos
    constructor
    · constructor
      · intro hc
        have h1 : 0 < (ep.value - sp.value) / sp.value := div_pos hc hpos
        nlinarith
      · intro hcp
        by_contra hle
        push_neg at hle
        have h1 : (ep.value - sp.value) / sp.value ≤ 0 :=
          div_nonpos_of_nonpos_of_nonneg hle (le_of_lt hpos)
        nlinarith
    · constructor
      · intro hc
        have h1 : (ep.value - sp.value) / sp.value < 0 := div_neg_of_neg_of_pos hc hpos
        nlinarith
      · intro hcp
        by_contra hle
        push_neg at hle
        have h1 : 0 ≤ (ep.value - sp.value) / sp.value :=
          div_nonneg hle (le_of_lt hpos)
        nlinarith

/-- Witness for `rangeStats_change_formula`: the spec's example, values
`[100, 110, 90]` with the range from index 0 to index 2. -/
theorem rangeStats_change_formula_witness :
    ([⟨"2020-01-01", 100, "a"⟩, ⟨"2020-01-02", 110, "b"⟩,
      ⟨"2020-01-03", 90, "c"⟩] : List ChartDataPoint)[(0 : Nat)]? =
        some ⟨"2020-01-01", 100, "a"⟩ ∧
    ([⟨"2020-01-01", 100, "a"⟩, ⟨"2020-01-02", 110, "b"⟩,
      ⟨"2020-01-03", 90, "c"⟩] : List ChartDataPoint)[(2 : Nat)]? =
        some ⟨"2020-01-03", 90, "c"⟩ ∧
    (⟨"2020-01-01", 100, "a"⟩ : ChartDataPoint).value ≠ 0 ∧
    (∃ stats cp,
      rangeStats
        [⟨"2020-01-01", 100, "a"⟩, ⟨"2020-01-02", 110, "b"⟩,
         ⟨"2020-01-03", 90, "c"⟩]
        (some ⟨"2020-01-01", "2020-01-03", 0, 2⟩) = some stats ∧
      stats.startValue = (⟨"2020-01-01", 100, "a"⟩ : ChartDataPoint).value ∧
      stats.endValue = (⟨"2020-01-03", 90, "c"⟩ : ChartDataPoint).value ∧
      stats.change = (⟨"2020-01-03", 90, "c"⟩ : ChartDataPoint).value -
        (⟨"2020-01-01", 100, "a"⟩ : ChartDataPoint).value ∧
      stats.changePercent = some cp ∧
      cp = stats.change / (⟨"2020-01-01", 100, "a"⟩ : ChartDataPoint).value * 100 ∧
      (0 < (⟨"2020-01-01", 100, "a"⟩ : ChartDataPoint).value →
        ((0 < stats.change ↔ 0 < cp) ∧ (stats.change < 0 ↔ cp < 0)))) :=
  ⟨rfl, rfl, by norm_num,
    rangeStats_change_formula _ ⟨"2020-01-01", "2020-01-03", 0, 2⟩ _ _ rfl rfl
      (by norm_num)⟩

/-- Counterexample to C1 as stated: with a negative start value
(`[−100, −110]`, range index 0 → 1) the change is negative while
`changePercent` is positive, so the sign of `changePercent` does not match the
direction of the change even though the start value is non-zero. -/
theorem rangeStats_sign_counterexample :
    rangeStats [⟨"2020-01-01", -100, "a"⟩, ⟨"2020-01-02", -110, "b"⟩]
        (some ⟨"2020-01-01", "2020-01-02", 0, 1⟩) =
      some ⟨-100, -110, -10, some 10⟩ ∧
    (⟨-100, -110, -10, some 10⟩ : RangeStats).change < 0 ∧
    (0 : ℚ) < 10 := by
  refine ⟨?_, by norm_num, by norm_num⟩
  norm_num [rangeStats, jsDiv]

/-- C8: when the start value of the selected range is zero (and the end point
exists), `rangeStats` still produces statistics; `changePercent` is the
non-finite result of the division by zero (modelled as `none`), with no
special handling. -/
theorem rangeStats_zero_start (data : List ChartDataPoint) (r : DateRange)
    (sp ep : ChartDataPoint)
    (hs : data[r.startIndex]? = some sp) (he : data[r.endIndex]? = some ep)
    (hz : sp.value = 0) :
    ∃ stats, rangeStats data (some r) = some stats ∧
      stats.changePercent = none ∧
      stats.startValue = 0 ∧ stats.endValue = ep.value ∧
      stats.change = ep.value := by
  have hlen : data.length ≠ 0 := by
    intro h0
    rw [List.length_eq_zero] at h0
    subst h0
    simp at hs
  refine ⟨⟨0, ep.value, ep.value, none⟩, ?_, rfl, rfl, rfl, rfl⟩
  simp [rangeStats, hlen, hs, he, jsDiv, hz]

/-- Witness for `rangeStats_zero_start`: a series whose first value is zero. -/
theorem rangeStats_zero_start_witness :
    ([⟨"2020-01-01", 0, "a"⟩, ⟨"2020-01-02", 7, "b"⟩] :
        List ChartDataPoint)[(0 : Nat)]? = some ⟨"2020-01-01", 0, "a"⟩ ∧
    ([⟨"2020-01-01", 0, "a"⟩, ⟨"2020-01-02", 7, "b"⟩] :
        List ChartDataPoint)[(1 : Nat)]? = some ⟨"2020-01-02", 7, "b"⟩ ∧
    (⟨"2020-01-01", 0, "a"⟩ : ChartDataPoint).value = 0 ∧
    (∃ stats,
      rangeStats [⟨"2020-01-01", 0, "a"⟩, ⟨"2020-01-02", 7, "b"⟩]
        (some ⟨"2020-01-01", "2020-01-02", 0, 1⟩) = some stats ∧
      stats.changePercent = none ∧
      stats.startValue = 0 ∧
      stats.endValue = (⟨"2020-01-02", 7, "b"⟩ : ChartDataPoint).value ∧
      stats.change = (⟨"2020-01-02", 7, "b"⟩ : ChartDataPoint).value) :=
  ⟨rfl, rfl, rfl,
    rangeStats_zero_start _ ⟨"2020-01-01", "2020-01-02", 0, 1⟩ _ _ rfl rfl rfl⟩

/-- Helper: a forward drag (left anchor before right anchor) emits the range
as resolved, without swapping. -/
theorem onMouseUp_forward_eq (data : List ChartDataPoint)
    (l r : String) (li ri : Nat) (hl0 : l ≠ "") (hr0 : r ≠ "")
    (hl : data.findIdx? (fun d => d.timestamp = l) = some li)
    (hr : data.findIdx? (fun d => d.timestamp = r) = some ri)
    (hlt : li < ri) (hlib : li < data.length) (hrib : ri < data.length) :
    onMouseUp data true (some l) (some r) =
      some (some ⟨splitDate data[li].timestamp,
                  splitDate data[ri].timestamp, li, ri⟩) := by
  have hb1 : (l == "") = false := beq_eq_false_iff_ne.mpr hl0
  have hb2 : (r == "") = false := beq_eq_false_iff_ne.mpr hr0
  have hgt : ¬ ((li : Int) > (ri : Int)) := by omega
  have hpos : (ri : Int) - (li : Int) > 0 := by omega
  have h3 : ¬ ((li : Int) < 0) := by omega
  have h4 : ¬ ((ri : Int) < 0) := by omega
  simp only [onMouseUp, truthy, hb1, hb2, Bool.not_false, Bool.and_self,
    Bool.true_and, Bool.and_true, if_true, Option.getD_some, findIndexTS,
    hl, hr, if_neg hgt, if_pos hpos, jsGet, if_neg h3, if_neg h4,
    Int.toNat_natCast, List.getElem?_eq_getElem hlib,
    List.getElem?_eq_getElem hrib]

/-- Helper: a backward drag (left anchor after right anchor) swaps the two
resolved indices before emitting the range. -/
theorem onMouseUp_backward_eq (data : List ChartDataPoint)
    (l r : String) (li ri : Nat) (hl0 : l ≠ "") (hr0 : r ≠ "")
    (hl : data.findIdx? (fun d => d.timestamp = l) = some li)
    (hr : data.findIdx? (fun d => d.timestamp = r) = some ri)
    (hlt : ri < li) (hlib : li < data.length) (hrib : ri < data.length) :
    onMouseUp data true (some l) (some r) =
      some (some ⟨splitDate data[ri].timestamp,
                  splitDate data[li].timestamp, ri, li⟩) := by
  have hb1 : (l == "") = false := beq_eq_false_iff_ne.mpr hl0
  have hb2 : (r == "") = false := beq_eq_false_iff_ne.mpr hr0
  have hgt : (li : Int) > (ri : Int) := by omega
  have hpos : (li : Int) - (ri : Int) > 0 := by omega
  have h3 : ¬ ((li : Int) < 0) := by omega
  have h4 : ¬ ((ri : Int) < 0) := by omega
  simp only [onMouseUp, truthy, hb1, hb2, Bool.not_false, Bool.and_self,
    Bool.true_and, Bool.and_true, if_true, Option.getD_some, findIndexTS,
    hl, hr, if_pos hgt, if_pos hpos, jsGet, if_neg h3, if_neg h4,
    Int.toNat_natCast, List.getElem?_eq_getElem hlib,
    List.getElem?_eq_getElem hrib]

/-- C2: for a completed drag whose two anchors resolve to indices `li` and
`ri` of the data, the emitted range has `startIndex = min li ri` and
`endIndex = max li ri` (backward drags are swapped) with
`startIndex < endIndex`, and when the two indices coincide `onRangeChange`
is called with `null` instead. -/
theorem onMouseUp_swaps_and_clears (data : List ChartDataPoint)
    (l r : String) (li ri : Nat) (hl0 : l ≠ "") (hr0 : r ≠ "")
    (hl : data.findIdx? (fun d => d.timestamp = l) = some li)
    (hr : data.findIdx? (fun d => d.timestamp = r) = some ri) :
    (li = ri → onMouseUp data true (some l) (some r) = some none) ∧
    (li ≠ ri → ∃ rng sp ep,
      onMouseUp data true (some l) (some r) = some (some rng) ∧
      rng.startIndex = min li ri ∧ rng.endIndex = max li ri ∧
      rng.startIndex < rng.endIndex ∧
      data[rng.startIndex]? = some sp ∧ data[rng.endIndex]? = some ep ∧
      rng.startDate = splitDate sp.timestamp ∧
      rng.endDate = splitDate ep.timestamp) := by
  have hlib : li < data.length :=
    (List.findIdx?_eq_some_iff_findIdx_eq.mp hl).1
  have hrib : ri < data.length :=
    (List.findIdx?_eq_some_iff_findIdx_eq.mp hr).1
  have hb1 : (l == "") = false := beq_eq_false_iff_ne.mpr hl0
  have hb2 : (r == "") = false := beq_eq_false_iff_ne.mpr hr0
  constructor
  · intro heq
    subst heq
    simp only [onMouseUp, truthy, hb1, hb2, Bool.not_false, Bool.and_self,
      Bool.true_and, Bool.and_true, if_true, Option.getD_some, findIndexTS,
      hl, hr]
    simp
  · intro hne
    rcases Nat.lt_or_ge li ri with h | hge
    · refine ⟨⟨splitDate data[li].timestamp, splitDate data[ri].timestamp, li, ri⟩,
        data[li], data[ri],
        onMouseUp_forward_eq data l r li ri hl0 hr0 hl hr h hlib hrib,
        (Nat.min_eq_left (Nat.le_of_lt h)).symm,
        (Nat.max_eq_right (Nat.le_of_lt h)).symm, h,
        List.getElem?_eq_getElem hlib, List.getElem?_eq_getElem hrib, rfl, rfl⟩
    · have h : ri < li := Nat.lt_of_le_of_ne hge (Ne.symm hne)
      refine ⟨⟨splitDate data[ri].timestamp, splitDate data[li].timestamp, ri, li⟩,
        data[ri], data[li],
        onMouseUp_backward_eq data l r li ri hl0 hr0 hl hr h hlib hrib,
        (Nat.min_eq_right (Nat.le_of_lt h)).symm,
        (Nat.max_eq_left (Nat.le_of_lt h)).symm, h,
        List.getElem?_eq_getElem hrib, List.getElem?_eq_getElem hlib, rfl, rfl⟩

/-- Witness for `onMouseUp_swaps_and_clears`: a concrete backward drag over a
two-point series. -/
theorem onMouseUp_swaps_and_clears_witness :
    ("2020-01-02T00" : String) ≠ "" ∧ ("2020-01-01T00" : String) ≠ "" ∧
    ([⟨"2020-01-01T00", 1, "a"⟩, ⟨"2020-01-02T00", 2, "b"⟩] :
        List ChartDataPoint).findIdx?
      (fun d => d.timestamp = "2020-01-02T00") = some 1 ∧
    ([⟨"2020-01-01T00", 1, "a"⟩, ⟨"2020-01-02T00", 2, "b"⟩] :
        List ChartDataPoint).findIdx?
      (fun d => d.timestamp = "2020-01-01T00") = some 0 ∧
    ((1 = 0 →
      onMouseUp [⟨"2020-01-01T00", 1, "a"⟩, ⟨"2020-01-02T00", 2, "b"⟩] true
        (some "2020-01-02T00") (some "2020-01-01T00") = some none) ∧
    (1 ≠ 0 → ∃ rng sp ep,
      onMouseUp [⟨"2020-01-01T00", 1, "a"⟩, ⟨"2020-01-02T00", 2, "b"⟩] true
        (some "2020-01-02T00") (some "2020-01-01T00") = some (some rng) ∧
      rng.startIndex = min 1 0 ∧ rng.endIndex = max 1 0 ∧
      rng.startIndex < rng.endIndex ∧
      ([⟨"2020-01-01T00", 1, "a"⟩, ⟨"2020-01-02T00", 2, "b"⟩] :
          List ChartDataPoint)[rng.startIndex]? = some sp ∧
      ([⟨"2020-01-01T00", 1, "a"⟩, ⟨"2020-01-02T00", 2, "b"⟩] :
          List ChartDataPoint)[rng.endIndex]? = some ep ∧
      rng.startDate = splitDate sp.timestamp ∧
      rng.endDate = splitDate ep.timestamp)) :=
  ⟨by decide, by decide, by decide, by decide,
    onMouseUp_swaps_and_clears
      [⟨"2020-01-01T00", 1, "a"⟩, ⟨"2020-01-02T00", 2, "b"⟩]
      "2020-01-02T00" "2020-01-01T00" 1 0
      (by decide) (by decide) (by decide) (by decide)⟩

/-- Helper: a list of options that are all `some` is the image of a list of
values under `some`. -/
theorem list_eq_map_some {l : List (Option ℚ)} (h : ∀ x ∈ l, x.isSome) :
    ∃ vs : List ℚ, l = vs.map some := by
  induction l with
  | nil => exact ⟨[], rfl⟩
  | cons a l ih =>
    obtain ⟨v, hv⟩ := Option.isSome_iff_exists.mp (h a (List.mem_cons_self a l))
    obtain ⟨vs, hvs⟩ := ih (fun x hx => h x (List.mem_cons_of_mem a hx))
    exact ⟨v :: vs, by simp [hv, hvs]⟩

/-- Helper: the JavaScript reduce-sum over defined summands. -/
theorem jsSum_go (vs : List ℚ) : ∀ a : ℚ,
    List.foldl (fun acc e =>
      match acc, e with
      | some s, some v => some (s + v)
      | _, _ => none) (some a) (vs.map some) = some (a + vs.sum) := by
  induction vs with
  | nil => intro a; simp
  | cons v vs ih =>
    intro a
    simp only [List.map_cons, List.foldl_cons]
    rw [ih (a + v)]
    simp [add_assoc]

/-- Helper: `jsSum` of defined summands is the rational sum. -/
theorem jsSum_map_some (vs : List ℚ) : jsSum (vs.map some) = some vs.sum := by
  rw [jsSum, jsSum_go vs 0]
  simp

/-- Helper: when the forecast array is at least as long as the actual array,
no per-point error is `NaN`. -/
theorem windowErrors_all_isSome (w : BacktestWindow)
    (hal : w.actual_values.length ≤ w.forecast_values.length) :
    ∀ x ∈ windowErrors w, x.isSome := by
  intro x hx
  simp only [windowErrors, List.mem_map] at hx
  obtain ⟨p, hp, rfl⟩ := hx
  have hip : w.actual_values[p.1]? = some p.2 :=
    List.mem_enum_iff_getElem?.mp hp
  have hib : p.1 < w.actual_values.length := by
    rcases List.getElem?_eq_some.mp hip with ⟨h, _⟩
    exact h
  have hfb : p.1 < w.forecast_values.length := lt_of_lt_of_le hib hal
  by_cases hz : p.2 = 0
  · simp [hz]
  · simp [hz, List.getElem?_eq_getElem hfb]

/-- Helper: there is one per-point error per actual value. -/
theorem windowErrors_length (w : BacktestWindow) :
    (windowErrors w).length = w.actual_values.length := by
  simp [windowErrors, List.enum_length]

/-- C3 (amended): the per-point error at an aligned index is
`|(actual − forecast) / actual| × 100` when the actual value is non-zero
(equal to `|actual − forecast| / actual × 100` whenever actual > 0), and is
exactly 0 when the actual value is zero, regardless of the forecast value —
the division-by-zero branch is never taken. -/
theorem windowErrors_per_point (w : BacktestWindow) (i : Nat) (a : ℚ)
    (ha : w.actual_values[i]? = some a) :
    (a = 0 → (windowErrors w)[i]? = some (some 0)) ∧
    (∀ f, w.forecast_values[i]? = some f → a ≠ 0 →
      (windowErrors w)[i]? = some (some (|(a - f) / a| * 100))) := by
  constructor
  · intro h0
    subst h0
    simp [windowErrors, List.getElem?_map, List.getElem?_enum, ha]
  · intro f hf hne
    simp [windowErrors, List.getElem?_map, List.getElem?_enum, ha, hf, hne]

/-- Witness for `windowErrors_per_point`: a window whose first actual value
is zero (error 0 despite a forecast of 5) and whose second is non-zero. -/
theorem windowErrors_per_point_witness :
    (⟨"h0", "h1", "t0", "t1", [0, 3], [5, 4], ["a", "b"]⟩ :
        BacktestWindow).actual_values[(0 : Nat)]? = some 0 ∧
    (((0 : ℚ) = 0 →
      (windowErrors ⟨"h0", "h1", "t0", "t1", [0, 3], [5, 4], ["a", "b"]⟩)[(0 : Nat)]? =
        some (some 0)) ∧
    (∀ f, (⟨"h0", "h1", "t0", "t1", [0, 3], [5, 4], ["a", "b"]⟩ :
        BacktestWindow).forecast_values[(0 : Nat)]? = some f → (0 : ℚ) ≠ 0 →
      (windowErrors ⟨"h0", "h1", "t0", "t1", [0, 3], [5, 4], ["a", "b"]⟩)[(0 : Nat)]? =
        some (some (|(0 - f) / 0| * 100)))) :=
  ⟨by decide, windowErrors_per_point ⟨"h0", "h1", "t0", "t1", [0, 3], [5, 4], ["a", "b"]⟩
    0 0 (by decide)⟩

/-- Counterexample to C3 as stated: for a negative actual value the code's
error `Math.abs((a − f) / a) × 100` is positive, while the claimed formula
`|a − f| / a × 100` is negative; at actual = −2, forecast = 0 the code
produces 100, the claimed formula −100. -/
theorem windowErrors_abs_counterexample :
    windowErrors ⟨"h0", "h1", "t0", "t1", [-2], [0], ["a"]⟩ = [some 100] ∧
    |(-2 : ℚ) - 0| / (-2) * 100 = -100 ∧
    some (100 : ℚ) ≠ some (-100 : ℚ) := by
  refine ⟨?_, by norm_num, by norm_num⟩
  norm_num [windowErrors, List.enum_cons, List.enum_nil]

/-- C4: for a window with a non-empty actual array aligned with its forecast
array, the displayed per-window MAPE is the arithmetic mean of its per-point
errors; and the displayed overall MAPE/MAE are read verbatim from the
service response fields, unaffected by the windows. -/
theorem windowMape_mean_and_overall_verbatim (w : BacktestWindow)
    (hne : w.actual_values ≠ [])
    (hal : w.actual_values.length ≤ w.forecast_values.length) :
    (∃ errs : List ℚ, windowErrors w = errs.map some ∧
      errs.length = w.actual_values.length ∧
      windowMape w = some (errs.sum / (errs.length : ℚ))) ∧
    (∀ (r : BacktestResult) (ws : List BacktestWindow),
      displayedMape { r with windows := ws } = r.mape ∧
      displayedMae { r with windows := ws } = r.mae) := by
  refine ⟨?_, fun r ws => ⟨rfl, rfl⟩⟩
  obtain ⟨errs, herrs⟩ := list_eq_map_some (windowErrors_all_isSome w hal)
  have hlen : errs.length = w.actual_values.length := by
    have h1 := windowErrors_length w
    rw [herrs, List.length_map] at h1
    exact h1
  refine ⟨errs, herrs, hlen, ?_⟩
  have hsum : jsSum (windowErrors w) = some errs.sum := by
    rw [herrs, jsSum_map_some]
  have hA0 : w.actual_values.length ≠ 0 := by
    simpa [List.length_eq_zero] using hne
  have hcast : (((windowErrors w).length : ℚ)) ≠ 0 := by
    rw [windowErrors_length w]
    exact_mod_cast hA0
  simp only [windowMape, hsum, jsDiv, if_neg hcast]
  rw [windowErrors_length w, ← hlen]

/-- Witness for `windowMape_mean_and_overall_verbatim`: actuals `[1, 2]`
with forecasts `[1, 1]`, per-point errors `[0, 50]`, window MAPE 25. -/
theorem windowMape_mean_witness :
    (⟨"h0", "h1", "t0", "t1", [1, 2], [1, 1], ["a", "b"]⟩ :
        BacktestWindow).actual_values ≠ [] ∧
    (⟨"h0", "h1", "t0", "t1", [1, 2], [1, 1], ["a", "b"]⟩ :
        BacktestWindow).actual_values.length ≤
      (⟨"h0", "h1", "t0", "t1", [1, 2], [1, 1], ["a", "b"]⟩ :
        BacktestWindow).forecast_values.length ∧
    ((∃ errs : List ℚ,
      windowErrors ⟨"h0", "h1", "t0", "t1", [1, 2], [1, 1], ["a", "b"]⟩ =
        errs.map some ∧
      errs.length = (⟨"h0", "h1", "t0", "t1", [1, 2], [1, 1], ["a", "b"]⟩ :
        BacktestWindow).actual_values.length ∧
      windowMape ⟨"h0", "h1", "t0", "t1", [1, 2], [1, 1], ["a", "b"]⟩ =
        some (errs.sum / (errs.length : ℚ))) ∧
    (∀ (r : BacktestResult) (ws : List BacktestWindow),
      displayedMape { r with windows := ws } = r.mape ∧
      displayedMae { r with windows := ws } = r.mae)) :=
  ⟨by decide, by decide,
    windowMape_mean_and_overall_verbatim
      ⟨"h0", "h1", "t0", "t1", [1, 2], [1, 1], ["a", "b"]⟩
      (by decide) (by decide)⟩

/-- Helper: overwriting an existing key makes its entry the found one. -/
theorem find?_mapSet_overwrite (m : List (String × Option ℚ)) (k : String)
    (v : Option ℚ) (h : m.any (fun p => p.1 = k) = true) :
    (m.map (fun p => if p.1 = k then (k, v) else p)).find?
      (fun p => p.1 = k) = some (k, v) := by
  induction m with
  | nil => simp at h
  | cons a m ih =>
    by_cases hk : a.1 = k
    · simp only [List.map_cons, if_pos hk]
      exact List.find?_cons_of_pos _ (by simp)
    · simp only [List.map_cons, if_neg hk]
      rw [List.find?_cons_of_neg _ (by simp [hk])]
      exact ih (by simpa [hk] using h)

/-- Helper: overwriting key `k` leaves lookups of other keys unchanged. -/
theorem find?_mapSet_other (m : List (String × Option ℚ)) (k q : String)
    (v : Option ℚ) (hq : q ≠ k) :
    (m.map (fun p => if p.1 = k then (k, v) else p)).find?
      (fun p => p.1 = q) = m.find? (fun p => p.1 = q) := by
  induction m with
  | nil => rfl
  | cons a m ih =>
    by_cases hk : a.1 = k
    · have ha : a.1 ≠ q := by rw [hk]; exact Ne.symm hq
      simp only [List.map_cons, if_pos hk]
      rw [List.find?_cons_of_neg _ (by simp [Ne.symm hq]),
        List.find?_cons_of_neg _ (by simp [ha])]
      exact ih
    · simp only [List.map_cons, if_neg hk]
      by_cases hq2 : a.1 = q
      · rw [List.find?_cons_of_pos _ (by simp [hq2]),
          List.find?_cons_of_pos _ (by simp [hq2])]
      · rw [List.find?_cons_of_neg _ (by simp [hq2]),
          List.find?_cons_of_neg _ (by simp [hq2])]
        exact ih

/-- Helper: lookup after a single `Map.set`. -/
theorem mapGet_mapSet (m : List (String × Option ℚ)) (k q : String)
    (v : Option ℚ) :
    mapGet (mapSet m k v) q = if q = k then some v else mapGet m q := by
  by_cases hany : m.any (fun p => p.1 = k) = true
  · rw [mapSet, if_pos hany]
    by_cases hqk : q = k
    · subst hqk
      rw [mapGet, find?_mapSet_overwrite m q v hany]
      simp
    · rw [mapGet, find?_mapSet_other m k q v hqk, if_neg hqk, mapGet]
  · rw [mapSet, if_neg hany]
    have hnone : m.find? (fun p => p.1 = k) = none := by
      rw [List.find?_eq_none]
      intro x hx hpx
      exact hany (List.any_eq_true.mpr ⟨x, hx, hpx⟩)
    by_cases hqk : q = k
    · subst hqk
      rw [mapGet, List.find?_append, hnone,
        List.find?_cons_of_pos _ (by simp)]
      simp
    · have h2 : ([(k, v)] : List (String × Option ℚ)).find?
          (fun p => p.1 = q) = none := by
        rw [List.find?_cons_of_neg _ (by simp [Ne.symm hqk])]
        rfl
      rw [mapGet, List.find?_append, h2, Option.or_none, if_neg hqk, mapGet]

/-- Helper: lookup after a sequence of `Map.set` writes is the value of the
last write of that key, falling back to the initial map. -/
theorem mapGet_foldl_mapSet (l : List (String × Option ℚ)) (q : String) :
    ∀ m0, mapGet (l.foldl (fun m p => mapSet m p.1 p.2) m0) q =
      ((l.reverse.find? (fun p => p.1 = q)).map (fun p => p.2)).or
        (mapGet m0 q) := by
  induction l with
  | nil => intro m0; simp
  | cons a l ih =>
    intro m0
    rw [List.foldl_cons, ih (mapSet m0 a.1 a.2), List.reverse_cons,
      List.find?_append, mapGet_mapSet]
    cases hfind : l.reverse.find? (fun p => p.1 = q) with
    | some x => simp [Option.or_some]
    | none =>
      by_cases hqa : q = a.1
      · rw [List.find?_cons_of_pos _ (by simp [hqa])]
        simp [hqa]
      · have ha : ¬ a.1 = q := fun h => hqa h.symm
        rw [List.find?_cons_of_neg _ (by simp [ha])]
        simp [hqa]

/-- Helper: `forecastMap` is the fold of `allWrites` over the empty map. -/
theorem forecastMap_eq_foldl (r : BacktestResult) :
    forecastMap (some r) =
      (allWrites r.windows).foldl (fun m p => mapSet m p.1 p.2) [] := by
  have go : ∀ (ws : List BacktestWindow) (m0 : List (String × Option ℚ)),
      ws.foldl (fun m w =>
        w.timestamps.enum.foldl (fun m p =>
          mapSet m (splitDate p.2) w.forecast_values[p.1]?) m) m0 =
      (allWrites ws).foldl (fun m p => mapSet m p.1 p.2) m0 := by
    intro ws
    induction ws with
    | nil => intro m0; rfl
    | cons w ws ih =>
      intro m0
      rw [List.foldl_cons, ih]
      conv_rhs => rw [allWrites, List.flatMap_cons, List.foldl_append,
        List.foldl_map]
      rfl
  simp only [forecastMap]
  by_cases h0 : r.windows.length = 0
  · rw [if_pos h0, List.length_eq_zero.mp h0]
    rfl
  · rw [if_neg h0]
    exact go r.windows []

/-- Helper: closed-form lookup in `forecastMap`: the last write wins. -/
theorem mapGet_forecastMap_char (r : BacktestResult) (d : String) :
    mapGet (forecastMap (some r)) d =
      ((allWrites r.windows).reverse.find? (fun p => p.1 = d)).map
        (fun p => p.2) := by
  rw [forecastMap_eq_foldl, mapGet_foldl_mapSet]
  have h0 : mapGet [] d = none := rfl
  rw [h0, Option.or_none]

/-- C6: when several windows (or several positions within a window) write a
forecast for the same calendar date, the retained value is that of the write
performed last in program order — last write wins, with no other
tie-break. -/
theorem forecastMap_last_write_wins (r : BacktestResult) (d : String) :
    mapGet (forecastMap (some r)) d =
      ((allWrites r.windows).reverse.find? (fun p => p.1 = d)).map
        (fun p => p.2) :=
  mapGet_forecastMap_char r d

/-- C5: every calendar date occurring in any window's timestamps is a key of
the forecast lookup map; and when a full time series is supplied, a point
whose date is absent from all windows gets `forecast = null` in the merged
series. -/
theorem forecastMap_covers_and_null_outside (r : BacktestResult) :
    (∀ w ∈ r.windows, ∀ ts ∈ w.timestamps,
      (mapGet (forecastMap (some r)) (splitDate ts)).isSome) ∧
    (∀ (fts : List ChartDataPoint) (i : Nat) (point : ChartDataPoint),
      0 < fts.length → fts[i]? = some point →
      (∀ w ∈ r.windows, ∀ ts ∈ w.timestamps,
        splitDate ts ≠ splitDate point.timestamp) →
      (chartData (some r) (some fts))[i]? =
        some ⟨point.timestamp, some point.value, none⟩) := by
  constructor
  · intro w hw ts hts
    rw [mapGet_forecastMap_char, Option.isSome_map']
    obtain ⟨i, hi⟩ := List.mem_iff_getElem?.mp hts
    refine List.find?_isSome.mpr ⟨(splitDate ts, w.forecast_values[i]?), ?_, by simp⟩
    rw [List.mem_reverse, allWrites, List.mem_flatMap]
    exact ⟨w, hw, List.mem_map.mpr ⟨(i, ts), List.mem_enum_iff_getElem?.mpr hi, rfl⟩⟩
  · intro fts i point hlen hi habs
    have hmap : mapGet (forecastMap (some r)) (splitDate point.timestamp) =
        none := by
      rw [mapGet_forecastMap_char]
      have hfn : (allWrites r.windows).reverse.find?
          (fun p => p.1 = splitDate point.timestamp) = none := by
        rw [List.find?_eq_none]
        intro x hx
        rw [List.mem_reverse, allWrites, List.mem_flatMap] at hx
        obtain ⟨w, hw, hxw⟩ := hx
        obtain ⟨p, hp, rfl⟩ := List.mem_map.mp hxw
        simp only [decide_eq_true_eq]
        exact habs w hw p.2
          (List.mem_iff_getElem?.mpr ⟨p.1, List.mem_enum_iff_getElem?.mp hp⟩)
      rw [hfn]
      rfl
    simp only [chartData, if_pos hlen, List.getElem?_map, hi, Option.map_some',
      hmap]
    rfl

/-- Witness for `forecastMap_covers_and_null_outside`: one window forecasting
date 2020-01-01; the map covers that date, and a series point dated
2020-01-02 gets a null forecast. -/
theorem forecastMap_covers_witness :
    ((⟨"h0", "h1", "t0", "t1", [4], [5], ["2020-01-01T00"]⟩ : BacktestWindow) ∈
      (⟨"TK", "c", "fw", "s", "d",
        [⟨"h0", "h1", "t0", "t1", [4], [5], ["2020-01-01T00"]⟩], 1, 1, 1⟩ :
        BacktestResult).windows) ∧
    ("2020-01-01T00" ∈
      (⟨"h0", "h1", "t0", "t1", [4], [5], ["2020-01-01T00"]⟩ :
        BacktestWindow).timestamps) ∧
    (mapGet (forecastMap (some
      ⟨"TK", "c", "fw", "s", "d",
        [⟨"h0", "h1", "t0", "t1", [4], [5], ["2020-01-01T00"]⟩], 1, 1, 1⟩))
      (splitDate "2020-01-01T00")).isSome ∧
    (chartData (some
      ⟨"TK", "c", "fw", "s", "d",
        [⟨"h0", "h1", "t0", "t1", [4], [5], ["2020-01-01T00"]⟩], 1, 1, 1⟩)
      (some [⟨"2020-01-02T00", 3, "x"⟩]))[(0 : Nat)]? =
      some ⟨"2020-01-02T00", some 3, none⟩ :=
  ⟨by decide, by decide,
    (forecastMap_covers_and_null_outside
      ⟨"TK", "c", "fw", "s", "d",
        [⟨"h0", "h1", "t0", "t1", [4], [5], ["2020-01-01T00"]⟩], 1, 1, 1⟩).1
      ⟨"h0", "h1", "t0", "t1", [4], [5], ["2020-01-01T00"]⟩ (by decide)
      "2020-01-01T00" (by decide),
    (forecastMap_covers_and_null_outside
      ⟨"TK", "c", "fw", "s", "d",
        [⟨"h0", "h1", "t0", "t1", [4], [5], ["2020-01-01T00"]⟩], 1, 1, 1⟩).2
      [⟨"2020-01-02T00", 3, "x"⟩] 0 ⟨"2020-01-02T00", 3, "x"⟩
      (by decide) (by decide) (by decide)⟩

/-- C7: each date formatter returns the library's formatted string when
parsing/formatting succeeds, and falls back to the raw input string (with
placeholder month/day badges in the events list) when the library throws. -/
theorem formatters_fallback_on_parse_failure
    (fmtX fmtD : String → Option String)
    (fmt3 : String → Option (String × String × String)) (s : String) :
    formatXAxis fmtX s = (fmtX s).getD s ∧
    formatDate fmtD s = (fmtD s).getD s ∧
    eventDateBadge fmt3 s = (fmt3 s).getD (s, "---", "--") := by
  refine ⟨?_, ?_, ?_⟩
  · cases h : fmtX s <;> simp [formatXAxis, h]
  · cases h : fmtD s <;> simp [formatDate, h]
  · cases h : fmt3 s <;> simp [eventDateBadge, h]

/-- C9: when the brush reports no selection (`brushData` missing or its
`startIndex` undefined), the callback receives the full range of the current
data — indices 0 and `length − 1` with the first and last points' dates —
and receives `null` exactly when the data array is empty. -/
theorem brushOnChange_clear_emits_full_range (data : List ChartDataPoint)
    (bd : Option BrushData)
    (hclear : bd = none ∨ ∃ b, bd = some b ∧ b.startIndex = none) :
    (data = [] → brushOnChange data bd = some none) ∧
    (∀ p0 pn, data.head? = some p0 → data.getLast? = some pn →
      brushOnChange data bd = some (some ⟨splitDate p0.timestamp,
        splitDate pn.timestamp, 0, data.length - 1⟩)) := by
  have hfall : brushOnChange data bd = some (brushFullRange data) := by
    rcases hclear with h | ⟨b, hb, hsi⟩
    · rw [h, brushOnChange]
    · rw [hb, brushOnChange, hsi]
  constructor
  · intro h
    subst h
    rw [hfall]
    rfl
  · intro p0 pn h0 hn
    rw [hfall, brushFullRange]
    rw [List.head?_eq_getElem?] at h0
    rw [List.getLast?_eq_getElem?] at hn
    rw [h0, hn]

/-- Witness for `brushOnChange_clear_emits_full_range`: a brush-clear
(`brushData` missing) over a two-point series. -/
theorem brushOnChange_clear_witness :
    ((none : Option BrushData) = none ∨
      ∃ b, (none : Option BrushData) = some b ∧ b.startIndex = none) ∧
    (([⟨"2020-01-01T00", 1, "a"⟩, ⟨"2020-01-02T00", 2, "b"⟩] :
        List ChartDataPoint) = [] →
      brushOnChange [⟨"2020-01-01T00", 1, "a"⟩, ⟨"2020-01-02T00", 2, "b"⟩]
        none = some none) ∧
    (∀ p0 pn,
      ([⟨"2020-01-01T00", 1, "a"⟩, ⟨"2020-01-02T00", 2, "b"⟩] :
        List ChartDataPoint).head? = some p0 →
      ([⟨"2020-01-01T00", 1, "a"⟩, ⟨"2020-01-02T00", 2, "b"⟩] :
        List ChartDataPoint).getLast? = some pn →
      brushOnChange [⟨"2020-01-01T00", 1, "a"⟩, ⟨"2020-01-02T00", 2, "b"⟩]
        none = some (some ⟨splitDate p0.timestamp, splitDate pn.timestamp, 0,
          ([⟨"2020-01-01T00", 1, "a"⟩, ⟨"2020-01-02T00", 2, "b"⟩] :
            List ChartDataPoint).length - 1⟩)) :=
  ⟨Or.inl rfl,
    (brushOnChange_clear_emits_full_range
      [⟨"2020-01-01T00", 1, "a"⟩, ⟨"2020-01-02T00", 2, "b"⟩] none
      (Or.inl rfl)).1,
    (brushOnChange_clear_emits_full_range
      [⟨"2020-01-01T00", 1, "a"⟩, ⟨"2020-01-02T00", 2, "b"⟩] none
      (Or.inl rfl)).2⟩

/-- Helper: invariant of the closest-point fold when every remaining diff is
defined.  Starting from a best `(b, m)`, the fold ends at the running best:
either the start pair (all later diffs at least `m`), or the first point of
the list strictly improving on everything before it and at least as good as
everything after it. -/
theorem closestScan_fold_min (getTime : String → Option ℚ) (ed : String) :
    ∀ (l : List ChartDataPoint) (b : ChartDataPoint) (m : ℚ),
      (∀ q ∈ l, ∃ dq, jsAbsDiff getTime (splitDate q.timestamp) ed = some dq) →
      ∃ p d,
        l.foldl (closestStep getTime ed) (some b, some m) = (some p, some d) ∧
        d ≤ m ∧
        ((p = b ∧ d = m ∧
          (∀ q ∈ l, ∀ dq,
            jsAbsDiff getTime (splitDate q.timestamp) ed = some dq → m ≤ dq)) ∨
         (∃ l1 l2, l = l1 ++ p :: l2 ∧
           jsAbsDiff getTime (splitDate p.timestamp) ed = some d ∧ d < m ∧
           (∀ q ∈ l1, ∀ dq,
             jsAbsDiff getTime (splitDate q.timestamp) ed = some dq → d < dq) ∧
           (∀ q ∈ l2, ∀ dq,
             jsAbsDiff getTime (splitDate q.timestamp) ed = some dq → d ≤ dq))) := by
  intro l
  induction l with
  | nil =>
    intro b m _
    exact ⟨b, m, rfl, le_refl m, Or.inl ⟨rfl, rfl, by simp⟩⟩
  | cons x l ih =>
    intro b m hall
    obtain ⟨dx, hdx⟩ := hall x (List.mem_cons_self x l)
    have hall' : ∀ q ∈ l, ∃ dq,
        jsAbsDiff getTime (splitDate q.timestamp) ed = some dq :=
      fun q hq => hall q (List.mem_cons_of_mem x hq)
    rw [List.foldl_cons]
    by_cases hcmp : dx < m
    · have hstep : closestStep getTime ed (some b, some m) x = (some x, some dx) := by
        simp [closestStep, hdx, hcmp]
      rw [hstep]
      obtain ⟨p, d, heq, hdm, hcase⟩ := ih x dx hall'
      refine ⟨p, d, heq, le_trans hdm (le_of_lt hcmp), Or.inr ?_⟩
      rcases hcase with ⟨hpx, hddx, hmin⟩ | ⟨l1, l2, hsplit, hdp, hdlt, hl1, hl2⟩
      · refine ⟨[], l, by rw [hpx]; rfl, ?_, ?_, by simp, ?_⟩
        · rw [hpx, hddx]
          exact hdx
        · rw [hddx]
          exact hcmp
        · intro q hq dq hdq
          rw [hddx]
          exact hmin q hq dq hdq
      · refine ⟨x :: l1, l2, by rw [hsplit]; rfl, hdp, lt_trans hdlt hcmp, ?_, hl2⟩
        intro q hq dq hdq
        rcases List.mem_cons.mp hq with rfl | hq'
        · rw [hdx] at hdq
          injection hdq with h
          rw [← h]
          exact hdlt
        · exact hl1 q hq' dq hdq
    · have hstep : closestStep getTime ed (some b, some m) x = (some b, some m) := by
        simp [closestStep, hdx, hcmp]
      rw [hstep]
      obtain ⟨p, d, heq, hdm, hcase⟩ := ih b m hall'
      refine ⟨p, d, heq, hdm, ?_⟩
      rcases hcase with ⟨hpb, hdm', hmin⟩ | ⟨l1, l2, hsplit, hdp, hdlt, hl1, hl2⟩
      · refine Or.inl ⟨hpb, hdm', ?_⟩
        intro q hq dq hdq
        rcases List.mem_cons.mp hq with rfl | hq'
        · rw [hdx] at hdq
          injection hdq with h
          rw [← h]
          exact not_lt.mp hcmp
        · exact hmin q hq' dq hdq
      · refine Or.inr ⟨x :: l1, l2, by rw [hsplit]; rfl, hdp, hdlt, ?_, hl2⟩
        intro q hq dq hdq
        rcases List.mem_cons.mp hq with rfl | hq'
        · rw [hdx] at hdq
          injection hdq with h
          rw [← h]
          exact lt_of_lt_of_le hdlt (not_lt.mp hcmp)
        · exact hl1 q hq' dq hdq

/-- C10: every marker produced by `eventMarkers` (with markers enabled, a
non-empty series and parseable dates) is anchored at an existing data point
of the series, namely the first point in array order minimizing the absolute
time difference to the event's date. -/
theorem eventMarkers_anchor_closest (getTime : String → Option ℚ)
    (criticalEvents : List CriticalEvent) (data : List ChartDataPoint)
    (marker : Option ChartDataPoint × CriticalEvent)
    (hmark : marker ∈ eventMarkers getTime true criticalEvents data)
    (hdata : data ≠ [])
    (hdiff : ∀ q ∈ data, ∃ dq, jsAbsDiff getTime (splitDate q.timestamp)
      (splitDate marker.2.timestamp) = some dq) :
    ∃ (p : ChartDataPoint) (dp : ℚ) (i : Nat),
      marker.1 = some p ∧ data[i]? = some p ∧
      jsAbsDiff getTime (splitDate p.timestamp)
        (splitDate marker.2.timestamp) = some dp ∧
      (∀ q ∈ data, ∀ dq, jsAbsDiff getTime (splitDate q.timestamp)
        (splitDate marker.2.timestamp) = some dq → dp ≤ dq) ∧
      (∀ j : Nat, j < i → ∀ q : ChartDataPoint, data[j]? = some q → ∀ dq,
        jsAbsDiff getTime (splitDate q.timestamp)
          (splitDate marker.2.timestamp) = some dq → dp < dq) := by
  rw [eventMarkers] at hmark
  by_cases hlen : criticalEvents.length = 0
  · rw [if_pos (Or.inr hlen)] at hmark
    exact absurd hmark (List.not_mem_nil marker)
  · rw [if_neg (by simp [hlen])] at hmark
    obtain ⟨e, he, hme⟩ := List.mem_map.mp hmark
    subst hme
    dsimp only at hdiff ⊢
    obtain ⟨x, rest, rfl⟩ : ∃ x rest, data = x :: rest := by
      cases data with
      | nil => exact absurd rfl hdata
      | cons x rest => exact ⟨x, rest, rfl⟩
    obtain ⟨dx, hdx⟩ := hdiff x (List.mem_cons_self x rest)
    have hscan : closestScan getTime (splitDate e.timestamp) (x :: rest) =
        rest.foldl (closestStep getTime (splitDate e.timestamp))
          (some x, some dx) := by
      rw [closestScan, List.foldl_cons, List.head?_cons]
      congr 1
      simp [closestStep, hdx]
    obtain ⟨p, d, heq, hdm, hcase⟩ :=
      closestScan_fold_min getTime (splitDate e.timestamp) rest x dx
        (fun q hq => hdiff q (List.mem_cons_of_mem x hq))
    rcases hcase with ⟨hpx, hddx, hmin⟩ | ⟨l1, l2, hsplit, hdp, hdlt, hl1, hl2⟩
    · refine ⟨p, d, 0, ?_, ?_, ?_, ?_, ?_⟩
      · rw [hscan, heq]
      · rw [hpx]
        exact List.getElem?_cons_zero
      · rw [hpx, hddx]
        exact hdx
      · intro q hq dq hdq
        rcases List.mem_cons.mp hq with rfl | hq'
        · rw [hdx] at hdq
          injection hdq with h
          rw [← h, hddx]
        · rw [hddx]
          exact hmin q hq' dq hdq
      · intro j hj
        exact absurd hj (Nat.not_lt_zero j)
    · refine ⟨p, d, l1.length + 1, ?_, ?_, hdp, ?_, ?_⟩
      · rw [hscan, heq]
      · rw [List.getElem?_cons_succ, hsplit,
          List.getElem?_append_right (le_refl l1.length), Nat.sub_self]
        exact List.getElem?_cons_zero
      · intro q hq dq hdq
        rcases List.mem_cons.mp hq with rfl | hq'
        · rw [hdx] at hdq
          injection hdq with h
          rw [← h]
          exact le_of_lt hdlt
        · rw [hsplit] at hq'
          rcases List.mem_append.mp hq' with h1 | h23
          · exact le_of_lt (hl1 q h1 dq hdq)
          · rcases List.mem_cons.mp h23 with rfl | h2
            · rw [hdp] at hdq
              injection hdq with h
              rw [← h]
            · exact hl2 q h2 dq hdq
      · intro j hj q hq dq hdq
        cases j with
        | zero =>
          rw [List.getElem?_cons_zero] at hq
          injection hq with h
          subst h
          rw [hdx] at hdq
          injection hdq with h
          rw [← h]
          exact hdlt
        | succ k =>
          rw [List.getElem?_cons_succ, hsplit] at hq
          have hk : k < l1.length := by omega
          rw [List.getElem?_append] at hq
          rw [if_pos hk] at hq
          have hqmem : q ∈ l1 := List.mem_iff_getElem?.mpr ⟨k, hq⟩
          exact hl1 q hqmem dq hdq

/-- Witness for `eventMarkers_anchor_closest`: two points dated A1 and A2,
one event dated A2; its marker is anchored at the second point. -/
theorem eventMarkers_anchor_witness :
    (((closestScan
        (fun s => if s = "A1" then some (1 : ℚ) else
          if s = "A2" then some 2 else none)
        (splitDate ("A2Tz" : String))
        [⟨"A1Tx", 10, "f"⟩, ⟨"A2Ty", 20, "g"⟩]).1,
      (⟨"A2Tz", "A2", none, "s"⟩ : CriticalEvent)) ∈
      eventMarkers
        (fun s => if s = "A1" then some (1 : ℚ) else
          if s = "A2" then some 2 else none)
        true [⟨"A2Tz", "A2", none, "s"⟩]
        [⟨"A1Tx", 10, "f"⟩, ⟨"A2Ty", 20, "g"⟩]) ∧
    ([⟨"A1Tx", 10, "f"⟩, ⟨"A2Ty", 20, "g"⟩] : List ChartDataPoint) ≠ [] ∧
    (∀ q ∈ ([⟨"A1Tx", 10, "f"⟩, ⟨"A2Ty", 20, "g"⟩] : List ChartDataPoint),
      ∃ dq, jsAbsDiff
        (fun s => if s = "A1" then some (1 : ℚ) else
          if s = "A2" then some 2 else none)
        (splitDate q.timestamp) (splitDate ("A2Tz" : String)) = some dq) ∧
    (∃ (p : ChartDataPoint) (dp : ℚ) (i : Nat),
      (closestScan
        (fun s => if s = "A1" then some (1 : ℚ) else
          if s = "A2" then some 2 else none)
        (splitDate ("A2Tz" : String))
        [⟨"A1Tx", 10, "f"⟩, ⟨"A2Ty", 20, "g"⟩]).1 = some p ∧
      ([⟨"A1Tx", 10, "f"⟩, ⟨"A2Ty", 20, "g"⟩] :
        List ChartDataPoint)[i]? = some p ∧
      jsAbsDiff
        (fun s => if s = "A1" then some (1 : ℚ) else
          if s = "A2" then some 2 else none)
        (splitDate p.timestamp) (splitDate ("A2Tz" : String)) = some dp ∧
      (∀ q ∈ ([⟨"A1Tx", 10, "f"⟩, ⟨"A2Ty", 20, "g"⟩] : List ChartDataPoint),
        ∀ dq, jsAbsDiff
          (fun s => if s = "A1" then some (1 : ℚ) else
            if s = "A2" then some 2 else none)
          (splitDate q.timestamp) (splitDate ("A2Tz" : String)) = some dq →
          dp ≤ dq) ∧
      (∀ j : Nat, j < i → ∀ q : ChartDataPoint,
        ([⟨"A1Tx", 10, "f"⟩, ⟨"A2Ty", 20, "g"⟩] :
          List ChartDataPoint)[j]? = some q → ∀ dq,
        jsAbsDiff
          (fun s => if s = "A1" then some (1 : ℚ) else
            if s = "A2" then some 2 else none)
          (splitDate q.timestamp) (splitDate ("A2Tz" : String)) = some dq →
          dp < dq)) := by
  have hmark :
      ((closestScan
          (fun s => if s = "A1" then some (1 : ℚ) else
            if s = "A2" then some 2 else none)
          (splitDate ("A2Tz" : String))
          [⟨"A1Tx", 10, "f"⟩, ⟨"A2Ty", 20, "g"⟩]).1,
        (⟨"A2Tz", "A2", none, "s"⟩ : CriticalEvent)) ∈
        eventMarkers
          (fun s => if s = "A1" then some (1 : ℚ) else
            if s = "A2" then some 2 else none)
          true [⟨"A2Tz", "A2", none, "s"⟩]
          [⟨"A1Tx", 10, "f"⟩, ⟨"A2Ty", 20, "g"⟩] := by
    rw [eventMarkers, if_neg (by simp)]
    exact List.mem_map.mpr
      ⟨⟨"A2Tz", "A2", none, "s"⟩, List.mem_cons_self _ _, rfl⟩
  have hdiff : ∀ q ∈ ([⟨"A1Tx", 10, "f"⟩, ⟨"A2Ty", 20, "g"⟩] :
      List ChartDataPoint),
      ∃ dq, jsAbsDiff
        (fun s => if s = "A1" then some (1 : ℚ) else
          if s = "A2" then some 2 else none)
        (splitDate q.timestamp) (splitDate ("A2Tz" : String)) = some dq := by
    intro q hq
    rcases List.mem_cons.mp hq with rfl | hq'
    · exact ⟨|(1 : ℚ) - 2|, rfl⟩
    rcases List.mem_cons.mp hq' with rfl | hq''
    · exact ⟨|(2 : ℚ) - 2|, rfl⟩
    · exact absurd hq'' (List.not_mem_nil q)
  exact ⟨hmark, by simp, hdiff,
    eventMarkers_anchor_closest
      (fun s => if s = "A1" then some (1 : ℚ) else
        if s = "A2" then some 2 else none)
      [⟨"A2Tz", "A2", none, "s"⟩]
      [⟨"A1Tx", 10, "f"⟩, ⟨"A2Ty", 20, "g"⟩]
      ((closestScan
        (fun s => if s = "A1" then some (1 : ℚ) else
          if s = "A2" then some 2 else none)
        (splitDate ("A2Tz" : String))
        [⟨"A1Tx", 10, "f"⟩, ⟨"A2Ty", 20, "g"⟩]).1,
        (⟨"A2Tz", "A2", none, "s"⟩ : CriticalEvent))
      hmark (by simp) hdiff⟩

end Dashboard
